import Mathlib

/-!
Verification development for the SVG panel assembly tool
(`main.py`, `align_axes.py`, `panel_frame_fit.py`).

The Python sources are shallowly embedded: XML element trees become an
inductive tree type, Python floats become exact rationals (`ℚ`), and code
that can raise an exception returns `Option` (with `none` for an uncaught
exception).  The regex searches of the sources are embedded as explicit
backtracking matchers with Python `re.search` semantics (leftmost start
position, greedy quantifiers with backtracking).
-/

set_option maxRecDepth 4000
set_option synthInstance.maxSize 512

/- Batteries marks the `Rat` arithmetic operations `@[irreducible]`, which
blocks elaboration-time evaluation of closed rational computations; the
kernel re-checks every proof either way. -/
set_option allowUnsafeReducibility true
attribute [local reducible] Rat.mul Rat.inv Rat.ofScientific Rat.add Rat.sub Rat.div Rat.neg Rat.blt

namespace Svg

/-! ### Characters and Python-style string utilities -/

/-- Python whitespace class `\s` (ASCII part), also used by `str.split()`
and by `float()` argument stripping. -/
def isPyWs (c : Char) : Bool :=
  c = ' ' ∨ c = '\t' ∨ c = '\n' ∨ c = '\r' ∨ c = Char.ofNat 12 ∨ c = Char.ofNat 11

def isDigitC (c : Char) : Bool := '0' ≤ c ∧ c ≤ '9'

def digitNat (c : Char) : Nat := c.toNat - 48

def natOfDigits (ds : List Char) : Nat := ds.foldl (fun a c => a * 10 + digitNat c) 0

def fracOfDigits (ds : List Char) : ℚ := (natOfDigits ds : ℚ) / ((10 : ℚ) ^ ds.length)

def dropWsL (cs : List Char) : List Char := cs.dropWhile isPyWs

def stripWsEnds (cs : List Char) : List Char :=
  ((cs.dropWhile isPyWs).reverse.dropWhile isPyWs).reverse

/-- `hasLead pat cs` : `pat` is an initial segment of `cs` (used for both
keyword search in strings and path-prefix tests on child-index paths). -/
def hasLead {α : Type} [DecidableEq α] : List α → List α → Bool
  | [], _ => true
  | _ :: _, [] => false
  | p :: ps, c :: cs => p = c && hasLead ps cs

/-- `hasTail pat cs` : `pat` is a final segment of `cs`
(Python `str.endswith`). -/
def hasTail (pat cs : List Char) : Bool := hasLead pat.reverse cs.reverse

/-- Python `str.split()` with no argument: split on whitespace runs,
dropping empty pieces (fuel-based; each step consumes at least one
character, so `cs.length` fuel always suffices). -/
def pyWordsAux : Nat → List Char → List (List Char)
  | 0, _ => []
  | _ + 1, [] => []
  | n + 1, c :: cs =>
    if isPyWs c then pyWordsAux n cs
    else (c :: cs.takeWhile (fun d => !isPyWs d)) ::
      pyWordsAux n (cs.dropWhile (fun d => !isPyWs d))

def pyWords (cs : List Char) : List (List Char) := pyWordsAux cs.length cs

/-- Remove every (leftmost, non-overlapping) occurrence of the two-character
pattern `a b` — Python `str.replace(ab, '')` for a 2-char pattern. -/
def stripSub2 (a b : Char) : List Char → List Char
  | [] => []
  | [c] => [c]
  | c :: d :: rest =>
    if c = a ∧ d = b then stripSub2 a b rest else c :: stripSub2 a b (d :: rest)

/-! ### Python `float()` on a string

Models the accepted grammar `ws* [+-]? (d+ ('.' d*)? | '.' d+) ([eE][+-]?d+)? ws*`;
the `inf`/`nan`/underscore forms (not representable in `ℚ` / not used by any
input this development touches) are outside the model and rejected. -/

/-- Mantissa: `d+ ('.' d*)? | '.' d+`; returns value and rest. -/
def mantParse (cs : List Char) : Option (ℚ × List Char) :=
  let ip := cs.takeWhile isDigitC
  let r1 := cs.dropWhile isDigitC
  if ip.isEmpty then
    match r1 with
    | '.' :: r2 =>
      let fp := r2.takeWhile isDigitC
      if fp.isEmpty then none
      else some (fracOfDigits fp, r2.dropWhile isDigitC)
    | _ => none
  else
    match r1 with
    | '.' :: r2 =>
      let fp := r2.takeWhile isDigitC
      some ((natOfDigits ip : ℚ) + fracOfDigits fp, r2.dropWhile isDigitC)
    | _ => some ((natOfDigits ip : ℚ), r1)

/-- Optional exponent `([eE][+-]?d+)`; returns exponent and rest. -/
def expParse (cs : List Char) : Option (ℤ × List Char) :=
  match cs with
  | 'e' :: r =>
    let sr : ℤ × List Char :=
      match r with
      | '+' :: t => (1, t)
      | '-' :: t => (-1, t)
      | t => (1, t)
    let ds := sr.2.takeWhile isDigitC
    if ds.isEmpty then none else some (sr.1 * natOfDigits ds, sr.2.dropWhile isDigitC)
  | 'E' :: r =>
    let sr : ℤ × List Char :=
      match r with
      | '+' :: t => (1, t)
      | '-' :: t => (-1, t)
      | t => (1, t)
    let ds := sr.2.takeWhile isDigitC
    if ds.isEmpty then none else some (sr.1 * natOfDigits ds, sr.2.dropWhile isDigitC)
  | _ => some (0, cs)

def pfCore (cs : List Char) : Option ℚ := do
  let sgn : ℚ × List Char :=
    match cs with
    | '+' :: t => (1, t)
    | '-' :: t => (-1, t)
    | t => (1, t)
  let (m, r1) ← mantParse sgn.2
  let (e, r2) ← expParse r1
  if r2.isEmpty then some (sgn.1 * m * (10 : ℚ) ^ e) else none

/-- Python `float(s)` (`none` = `ValueError`). -/
def pyFloat (cs : List Char) : Option ℚ := pfCore (stripWsEnds cs)

def pythonFloat (s : String) : Option ℚ := pyFloat s.data

/-! ### `re.findall(r'-?\d+\.?\d*', s)` fused with `float` of each token

Every token of this regex is a valid `float()` argument, so the extraction
and the conversion are fused into one scanner producing values directly. -/

/-- One token of `-?\d+\.?\d*` at the current position; returns its value
and the remaining input after the match. -/
def numTokAt (cs : List Char) : Option (ℚ × List Char) :=
  let sr : ℚ × List Char :=
    match cs with
    | '-' :: t => (-1, t)
    | t => (1, t)
  let ds := sr.2.takeWhile isDigitC
  if ds.isEmpty then none
  else
    let r1 := sr.2.dropWhile isDigitC
    match r1 with
    | '.' :: r2 =>
      let fs := r2.takeWhile isDigitC
      some (sr.1 * ((natOfDigits ds : ℚ) + fracOfDigits fs), r2.dropWhile isDigitC)
    | _ => some (sr.1 * (natOfDigits ds : ℚ), r1)

/-- Scanner with explicit fuel (each successful token consumes at least one
character, so `cs.length` fuel always suffices). -/
def scanNumsAux : Nat → List Char → List ℚ
  | 0, _ => []
  | _ + 1, [] => []
  | n + 1, c :: rest =>
    match numTokAt (c :: rest) with
    | some (q, r) => q :: scanNumsAux n r
    | none => scanNumsAux n rest

def pyFindNums (cs : List Char) : List ℚ := scanNumsAux cs.length cs

/-! ### The transform regexes of `main.py`

`translate\s*\(\s*([^,\s]+)(?:\s*,\s*([^)]+))?\s*\)` and the same for
`scale`, plus the six-argument `matrix` pattern.  The matchers reproduce
the backtracking behaviour of the Python engine: group 1 (`[^,\s]+`) is
greedy and backs off one character at a time; the optional second-argument
group is preferred present; `re.search` retries at each later start. -/

def notComWs (c : Char) : Bool := ¬ (c = ',' ∨ isPyWs c)

/-- The optional `(?:\s*,\s*([^)]+))?` followed by `\s*\)`, in the branch
where the optional group is present.  Returns group 2. -/
def tsPresent (rest1 : List Char) : Option (List Char) :=
  match dropWsL rest1 with
  | ',' :: p2 =>
    let q := dropWsL p2
    let s := q.takeWhile (fun c => c ≠ ')')
    if s.isEmpty then none
    else
      match q.drop s.length with
      | ')' :: _ => some s
      | _ => none
  | _ => none

/-- The branch where the optional group is absent: `\s*\)`. -/
def tsAbsent (rest1 : List Char) : Bool :=
  match dropWsL rest1 with
  | ')' :: _ => true
  | _ => false

/-- Backtracking over the length of greedy group 1 (`n + 1` is the current
candidate length, counting down). -/
def tsLoop (cs2 : List Char) : Nat → Option (List Char × Option (List Char))
  | 0 => none
  | n + 1 =>
    let rest1 := cs2.drop (n + 1)
    match tsPresent rest1 with
    | some g2 => some (cs2.take (n + 1), some g2)
    | none =>
      if tsAbsent rest1 then some (cs2.take (n + 1), none) else tsLoop cs2 n

/-- Match `\s*\(\s*([^,\s]+)(?:\s*,\s*([^)]+))?\s*\)` (the part after the
`translate` / `scale` keyword). -/
def tsArgs (cs : List Char) : Option (List Char × Option (List Char)) :=
  match dropWsL cs with
  | '(' :: r1 =>
    let cs2 := dropWsL r1
    tsLoop cs2 (cs2.takeWhile notComWs).length
  | _ => none

/-- One `([^,\s]+)\s*,` group of the matrix pattern (deterministic: the
greedy run cannot usefully backtrack before a required comma). -/
def mxGroup (cs : List Char) : Option (List Char × List Char) :=
  let g := cs.takeWhile notComWs
  if g.isEmpty then none
  else
    match dropWsL (cs.drop g.length) with
    | ',' :: r => some (g, r)
    | _ => none

/-- Match the part of the matrix pattern after the `matrix` keyword:
`\s*\(\s*` then five `([^,\s]+)\s*,\s*` groups then `([^)]+)\s*\)`. -/
def mxArgs (cs : List Char) :
    Option (List Char × List Char × List Char × List Char × List Char × List Char) :=
  match dropWsL cs with
  | '(' :: r0 => do
    let (g1, r1) ← mxGroup (dropWsL r0)
    let (g2, r2) ← mxGroup (dropWsL r1)
    let (g3, r3) ← mxGroup (dropWsL r2)
    let (g4, r4) ← mxGroup (dropWsL r3)
    let (g5, r5) ← mxGroup (dropWsL r4)
    let q := dropWsL r5
    let s := q.takeWhile (fun c => c ≠ ')')
    if s.isEmpty then none
    else
      match q.drop s.length with
      | ')' :: _ => some (g1, g2, g3, g4, g5, s)
      | _ => none
  | _ => none

/-- `re.search`: try the pattern (keyword `kw` followed by matcher `m`) at
each start position left to right. -/
def searchIn {α : Type} (kw : List Char) (m : List Char → Option α) : List Char → Option α
  | [] => none
  | c :: rest =>
    if hasLead kw (c :: rest) then
      match m (List.drop kw.length (c :: rest)) with
      | some r => some r
      | none => searchIn kw m rest
    else searchIn kw m rest

def tKW : List Char := "translate".data
def sKW : List Char := "scale".data
def mKW : List Char := "matrix".data

/-! ### `main.py` `parse_transform` -/

/-- A transform decomposition `(tx, ty, sx, sy)`. -/
structure Tf where
  tx : ℚ
  ty : ℚ
  sx : ℚ
  sy : ℚ
deriving DecidableEq, Repr

/-- `main.py::parse_transform` (`none` = an uncaught `ValueError` from
`float` on a matched group). -/
def parse_transform (s : String) : Option Tf :=
  if s.data.isEmpty then some ⟨0, 0, 1, 1⟩
  else do
    let txy : ℚ × ℚ ←
      match searchIn tKW tsArgs s.data with
      | none => some ((0 : ℚ), (0 : ℚ))
      | some (g1, g2o) => do
        let a ← pyFloat g1
        let b ← match g2o with
          | none => pure (0 : ℚ)
          | some g => pyFloat g
        pure (a, b)
    let sxy : ℚ × ℚ ←
      match searchIn sKW tsArgs s.data with
      | none => some ((1 : ℚ), (1 : ℚ))
      | some (g1, g2o) => do
        let a ← pyFloat g1
        let b ← match g2o with
          | none => pure a
          | some g => pyFloat g
        pure (a, b)
    match searchIn mKW mxArgs s.data with
    | none => some ⟨txy.1, txy.2, sxy.1, sxy.2⟩
    | some (g1, g2, g3, g4, g5, g6) => do
      let a ← pyFloat g1
      let _b ← pyFloat g2
      let _c ← pyFloat g3
      let d ← pyFloat g4
      let e ← pyFloat g5
      let f ← pyFloat g6
      pure ⟨e, f, a, d⟩

/-! ### Attribute values and element trees

`xml.etree.ElementTree` attribute values are strings.  Values the tool
itself writes are stored structurally, as the number(s) it formatted into
the string: Python's float formatting round-trips (`float(repr(x)) == x`),
so reading such an attribute back recovers exactly the stored numbers.
Each constructor records which readers see which content. -/

inductive AttrVal where
  /-- An ordinary attribute string. -/
  | str (s : String)
  /-- The string `f'{q}'` for a single number (written for `width`/`height`). -/
  | num (q : ℚ)
  /-- The string `f'translate({x}, {y})'` (written for group transforms). -/
  | trNum (x y : ℚ)
  /-- The string `f'{a} {b} {c} {d}'` (written for `viewBox`). -/
  | vbNum (a b c d : ℚ)
deriving DecidableEq, Repr

/-- Python truthiness of the attribute string (`if s:`). -/
def attrTruthy : AttrVal → Bool
  | .str s => ¬ s.data.isEmpty
  | _ => true

/-- Python `float()` of the attribute string.  A formatted number parses
back to itself; `translate(..)`/`viewBox` strings raise `ValueError`. -/
def pyFloatVal : AttrVal → Option ℚ
  | .str s => pyFloat s.data
  | .num q => some q
  | .trNum _ _ => none
  | .vbNum _ _ _ _ => none

/-- `re.findall(r'-?\d+\.?\d*', s)` of the attribute string, converted by
`float`.  For the formatted constructors this is the token list of the
underlying string (plain-decimal formatting). -/
def numsOfVal : AttrVal → List ℚ
  | .str s => pyFindNums s.data
  | .num q => [q]
  | .trNum x y => [x, y]
  | .vbNum a b c d => [a, b, c, d]

mutual
/-- An `xml.etree.ElementTree` element: tag, attributes (insertion-ordered
mapping), text content, children. -/
inductive Element : Type where
  | mk (tag : String) (attrs : List (String × AttrVal)) (text : Option String)
      (children : ElementList)

/-- Children of an element (a specialized list, so that all recursions
over the tree are structural). -/
inductive ElementList : Type where
  | nil
  | cons (e : Element) (es : ElementList)
end

def Element.tag : Element → String
  | .mk t _ _ _ => t

def Element.attrs : Element → List (String × AttrVal)
  | .mk _ a _ _ => a

def Element.text : Element → Option String
  | .mk _ _ tx _ => tx

def Element.children : Element → ElementList
  | .mk _ _ _ c => c

def ElementList.ofList : List Element → ElementList
  | [] => .nil
  | e :: es => .cons e (ElementList.ofList es)

def ElementList.append : ElementList → ElementList → ElementList
  | .nil, l => l
  | .cons e es, l => .cons e (es.append l)

def ElementList.length : ElementList → Nat
  | .nil => 0
  | .cons _ es => es.length + 1

/-- Child with index `i` (`element[i]` / iteration order). -/
def ElementList.get : ElementList → Nat → Option Element
  | .nil, _ => none
  | .cons e _, 0 => some e
  | .cons _ es, n + 1 => es.get n

/-- Build an element from an ordinary `List` of children. -/
def el (tag : String) (attrs : List (String × AttrVal)) (children : List Element) :
    Element :=
  .mk tag attrs none (ElementList.ofList children)

/-- Attribute lookup, `element.get(name)` (first match in the assoc list). -/
def assocFind (name : String) : List (String × AttrVal) → Option AttrVal
  | [] => none
  | (k, v) :: rest => if k = name then some v else assocFind name rest

def getAttr (e : Element) (name : String) : Option AttrVal := assocFind name e.attrs

/-- `element.tag.split('}')[-1] if '}' in element.tag else element.tag`:
the segment after the last `}` (the whole string when there is none). -/
def lastSegAux (sep : Char) : List Char → List Char → List Char
  | cur, [] => cur.reverse
  | cur, c :: rest =>
    if c = sep then lastSegAux sep [] rest else lastSegAux sep (c :: cur) rest

def localTag (s : String) : String := ⟨lastSegAux '}' [] s.data⟩

/-! ### `main.py` `get_content_bounds` -/

/-- A bounding box `(min_x, min_y, max_x, max_y)`. -/
structure Box where
  minX : ℚ
  minY : ℚ
  maxX : ℚ
  maxY : ℚ
deriving DecidableEq, Repr

/-- Lines 131-134 of `main.py`: combining the parent cumulative transform
with an element's own parsed transform. -/
def composeTf (p l : Tf) : Tf :=
  ⟨p.tx + l.tx * p.sx, p.ty + l.ty * p.sy, p.sx * l.sx, p.sy * l.sy⟩

/-- Lines 192-197: the cumulative transform applied to all four box
coordinates independently (no re-normalization). -/
def mapBox (t : Tf) (b : Box) : Box :=
  ⟨b.minX * t.sx + t.tx, b.minY * t.sy + t.ty, b.maxX * t.sx + t.tx, b.maxY * t.sy + t.ty⟩

/-- Lines 202-212: merging a child box into the accumulated bounds. -/
def mergeB (acc : Option Box) (cb : Box) : Box :=
  match acc with
  | none => cb
  | some b => ⟨min b.minX cb.minX, min b.minY cb.minY, max b.maxX cb.maxX, max b.maxY cb.maxY⟩

/-- `parse_transform` applied to an attribute value.  The tool's own
written transforms (`.trNum`) contain exactly one `translate` form; the
other formatted strings contain no transform keyword. -/
def parseTransformVal : AttrVal → Option Tf
  | .str s => parse_transform s
  | .trNum x y => some ⟨x, y, 1, 1⟩
  | .num _ => some ⟨0, 0, 1, 1⟩
  | .vbNum _ _ _ _ => some ⟨0, 0, 1, 1⟩

/-- Lines 128-134: read the element's `transform` attribute (empty / absent
is falsy and skipped) and compose it onto the parent transform. -/
def childTf (as : List (String × AttrVal)) (t : Tf) : Option Tf :=
  match assocFind "transform" as with
  | none => some t
  | some v =>
    if attrTruthy v then (parseTransformVal v).map (composeTf t) else some t

def childTransform (e : Element) (t : Tf) : Option Tf := childTf e.attrs t

/-- `float(element.get(name, 0))` (`none` = `ValueError`). -/
def getF (as : List (String × AttrVal)) (name : String) : Option ℚ :=
  match assocFind name as with
  | none => some 0
  | some v => pyFloatVal v

/-- Elements at even positions (`coords[0::2]`, the x stream). -/
def evenIdx : List ℚ → List ℚ
  | [] => []
  | [x] => [x]
  | x :: _ :: rest => x :: evenIdx rest

/-- Elements at odd positions (`coords[1::2]`, the y stream). -/
def oddIdx : List ℚ → List ℚ
  | [] => []
  | [_] => []
  | _ :: y :: rest => y :: oddIdx rest

def qMin (a : ℚ) (l : List ℚ) : ℚ := l.foldl min a

def qMax (a : ℚ) (l : List ℚ) : ℚ := l.foldl max a

/-- Split the extracted numbers into x/y streams and take min/max of each;
`none` when either stream is empty. -/
def evenOddBox (cs : List ℚ) : Option Box :=
  match evenIdx cs, oddIdx cs with
  | x :: xs, y :: ys => some ⟨qMin x xs, qMin y ys, qMax x xs, qMax y ys⟩
  | _, _ => none

/-- `main.py::get_path_bounds` on the `d` attribute value. -/
def get_path_bounds (d : Option AttrVal) : Option Box :=
  match d with
  | none => none
  | some v => if attrTruthy v then evenOddBox (numsOfVal v) else none

/-- The `polygon`/`polyline` branch (lines 169-178) on the `points`
attribute value; same number extraction as paths. -/
def polyBounds (p : Option AttrVal) : Option Box :=
  match p with
  | none => none
  | some v => if attrTruthy v then evenOddBox (numsOfVal v) else none

/-- Lines 139-188 of `main.py`: local bounds of one element by tag
(`none` = `ValueError` from `float`, `some none` = no intrinsic bounds). -/
def gcbSelf (tg : String) (as : List (String × AttrVal)) : Option (Option Box) :=
  let tag := localTag tg
  if tag = "rect" then do
    let x ← getF as "x"
    let y ← getF as "y"
    let w ← getF as "width"
    let h ← getF as "height"
    pure (some ⟨x, y, x + w, y + h⟩)
  else if tag = "circle" then do
    let cx ← getF as "cx"
    let cy ← getF as "cy"
    let r ← getF as "r"
    pure (some ⟨cx - r, cy - r, cx + r, cy + r⟩)
  else if tag = "ellipse" then do
    let cx ← getF as "cx"
    let cy ← getF as "cy"
    let rx ← getF as "rx"
    let ry ← getF as "ry"
    pure (some ⟨cx - rx, cy - ry, cx + rx, cy + ry⟩)
  else if tag = "line" then do
    let x1 ← getF as "x1"
    let y1 ← getF as "y1"
    let x2 ← getF as "x2"
    let y2 ← getF as "y2"
    pure (some ⟨min x1 x2, min y1 y2, max x1 x2, max y1 y2⟩)
  else if tag = "polyline" ∨ tag = "polygon" then
    pure (polyBounds (assocFind "points" as))
  else if tag = "path" then
    pure (get_path_bounds (assocFind "d" as))
  else if tag = "text" then do
    let x ← getF as "x"
    let y ← getF as "y"
    pure (some ⟨x, y - 10, x + 50, y + 5⟩)
  else
    pure none

mutual
/-- `main.py::get_content_bounds` (`none` = uncaught exception,
`some none` = no bounds found). -/
def get_content_bounds : Element → Tf → Option (Option Box)
  | .mk tg as _ cs, t =>
    match childTf as t with
    | none => none
    | some t' =>
      match gcbSelf tg as with
      | none => none
      | some ob => gcbChildren cs t' (ob.map (mapBox t'))

/-- The child loop of `get_content_bounds` (lines 200-212). -/
def gcbChildren : ElementList → Tf → Option Box → Option (Option Box)
  | .nil, _, acc => some acc
  | .cons c cs, t, acc =>
    match get_content_bounds c t with
    | none => none
    | some none => gcbChildren cs t acc
    | some (some cb) => gcbChildren cs t (some (mergeB acc cb))
end

example :
    get_content_bounds
      (el "g" [("transform", .str "scale(2)")]
        [el "rect"
          [("transform", .str "translate(5,5)"), ("x", .str "0"), ("y", .str "0"),
            ("width", .str "10"), ("height", .str "10")] []])
      ⟨0, 0, 1, 1⟩ = some (some ⟨10, 10, 30, 30⟩) :=
  by decide

example :
    get_content_bounds (el "polygon" [("points", .str "0,0 10,0 5,10")] []) ⟨0, 0, 1, 1⟩ =
      some (some ⟨0, 0, 10, 10⟩) :=
  by decide

example :
    get_content_bounds (el "rect" [("x", .str "abc")] []) ⟨0, 0, 1, 1⟩ = none :=
  by decide

/-! ### `parse_svg_dimensions` (identical in `main.py` and
`panel_frame_fit.py`) -/

/-- `.replace('pt', '').replace('px', '')`. -/
def stripPtPx (cs : List Char) : List Char := stripSub2 'p' 'x' (stripSub2 'p' 't' cs)

/-- One dimension attribute: strip `pt`/`px`, empty is `None`, otherwise
`float` (`none` = `ValueError`, `some none` = Python `None`). -/
def dimRead (e : Element) (name : String) : Option (Option ℚ) :=
  match getAttr e name with
  | none => some none
  | some (.str s) =>
    let s' := stripPtPx s.data
    if s'.isEmpty then some none
    else
      match pyFloat s' with
      | some q => some (some q)
      | none => none
  | some (.num q) => some (some q)
  | some (.trNum _ _) => none
  | some (.vbNum _ _ _ _) => none

/-- `viewBox.split()`; when there are exactly four parts, `float` of parts
2 and 3 (`none` = `ValueError`, `some none` = not four parts). -/
def vbCD : AttrVal → Option (Option (ℚ × ℚ))
  | .str s =>
    let ps := pyWords s.data
    if ps.length = 4 then
      match ps.get? 2, ps.get? 3 with
      | some p2, some p3 =>
        match pyFloat p2 with
        | none => none
        | some c =>
          match pyFloat p3 with
          | none => none
          | some d => some (some (c, d))
      | _, _ => none
    else some none
  | .vbNum _ _ c d => some (some (c, d))
  | .num _ => some none
  | .trNum _ _ => some none

/-- `parse_svg_dimensions`: width/height attributes with a joint
`ValueError` handler setting both to `None`, then the `viewBox` fallback
overwriting both when either is missing. -/
def parse_svg_dimensions (root : Element) : Option (Option ℚ × Option ℚ) :=
  let wv := dimRead root "width"
  let hv := dimRead root "height"
  let wh : Option ℚ × Option ℚ :=
    match wv, hv with
    | some w, some h => (w, h)
    | _, _ => (none, none)
  if wh.1.isNone ∨ wh.2.isNone then
    match getAttr root "viewBox" with
    | none => some wh
    | some v =>
      if attrTruthy v then
        match vbCD v with
        | none => none
        | some none => some wh
        | some (some (c, d)) => some (some c, some d)
      else some wh
  else some wh

/-! ### `crop_svg_to_content` -/

/-- The tag `'\x7b%s\x7dsvg' % svg_ns` written by the tool. -/
def nsSvgTag : String := "\x7bhttp://www.w3.org/2000/svg\x7dsvg"

/-- `attr not in ['width', 'height', 'viewBox']`. -/
def notWHV (k : String) : Bool := ¬ (k = "width" ∨ k = "height" ∨ k = "viewBox")

/-- Attributes of the cropped root: the three rewritten entries followed by
all other original attributes. -/
def cropAttrs (b : Box) (cw ch : ℚ) (rootAttrs : List (String × AttrVal)) :
    List (String × AttrVal) :=
  [("width", .num cw), ("height", .num ch), ("viewBox", .vbNum b.minX b.minY cw ch)] ++
    rootAttrs.filter (fun p => notWHV p.1)

/-- `main.py::crop_svg_to_content` (`none` = uncaught exception). -/
def crop_svg_to_content (root : Element) : Option (Element × ℚ × ℚ) :=
  match get_content_bounds root ⟨0, 0, 1, 1⟩ with
  | none => none
  | some none =>
    match parse_svg_dimensions root with
    | none => none
    | some (w, h) => some (root, w.getD 0, h.getD 0)
  | some (some b) =>
    let cw := b.maxX - b.minX
    let ch := b.maxY - b.minY
    some (.mk nsSvgTag (cropAttrs b cw ch root.attrs) none root.children, cw, ch)

/-! ### `create_composite_svg`

The argparse file-loading boundary is out of scope: the function is
modelled from the point where the panel documents are parsed element
trees.  `none` covers both the "no valid panels" failure return and an
uncaught exception. -/

structure Args where
  max_per_row : Nat
  col_gap : ℚ
  row_gap : ℚ
  outer_pad : ℚ
  crop : Bool
  tight : Bool
  gap_ratio : Option ℚ
  outer_publisher : Option String
  outer_layout : Option String
  add_panel_label : Bool
  panel_label_first : Char
  panel_label_font_size : ℤ

/-- `mm * 90.0 / 25.4`. -/
def mm_to_px (mm : ℚ) : ℚ := mm * 90 / 25.4

/-- `px * 25.4 / 90.0`. -/
def px_to_mm (px : ℚ) : ℚ := px * 25.4 / 90

/-- The width entry of `PUBLISHER_SIZES[publisher][layout]` (the height
entries are all `None` and never read). -/
def pubWidthMM (publisher layout : String) : Option ℚ :=
  if publisher = "ieee-access" ∨ publisher = "ieee-trans" ∨ publisher = "ieee-proc" then
    if layout = "single" then some 88.9
    else if layout = "double" ∨ layout = "full" then some 183
    else none
  else if publisher = "nature" then
    if layout = "single" then some 89
    else if layout = "double" then some 183
    else if layout = "full" then some 247
    else none
  else none

/-- Optional cropping pass over the panels (lines 277-284). -/
def cropStage (cropFlag : Bool) (panels : List Element) : Option (List Element) :=
  if cropFlag then panels.mapM (fun p => (crop_svg_to_content p).map (fun r => r.1))
  else some panels

/-- Panel dimensions, `width or 0` / `height or 0` (lines 287-290). -/
def dimsStage (panels : List Element) : Option (List (ℚ × ℚ)) :=
  panels.mapM (fun p =>
    (parse_svg_dimensions p).map (fun wh => (wh.1.getD 0, wh.2.getD 0)))

/-- `max(...) if panel_dims else 0`. -/
def maxOf1 : List ℚ → ℚ
  | [] => 0
  | x :: xs => qMax x xs

/-- Effective gaps: `tight` forces 0, else `gap_ratio` scales the average
panel size, else the fixed gaps (lines 297-309; an empty list would give
average 0, as does `ℚ` division by zero). -/
def gapsStage (args : Args) (dims : List (ℚ × ℚ)) : ℚ × ℚ :=
  if args.tight then (0, 0)
  else
    match args.gap_ratio with
    | some r =>
      let n : ℚ := dims.length
      (((dims.map Prod.fst).sum / n) * r, ((dims.map Prod.snd).sum / n) * r)
    | none => (args.col_gap, args.row_gap)

/-- Publisher sizing (lines 311-323): scale the cell size so that the
grid content width matches the target; the gap itself is not rescaled. -/
def scaledCell (args : Args) (numCols : Nat) (colGap maxW maxH : ℚ) : ℚ × ℚ :=
  match args.outer_publisher, args.outer_layout with
  | some pub, some lay =>
    match pubWidthMM pub lay with
    | some mm =>
      if mm ≠ 0 then
        let target := mm_to_px mm
        let tcw := (numCols : ℚ) * maxW + ((numCols - 1 : Nat) : ℚ) * colGap
        let scale := if 0 < tcw then target / tcw else 1
        (maxW * scale, maxH * scale)
      else (maxW, maxH)
    | none => (maxW, maxH)
  | _, _ => (maxW, maxH)

/-- `chr(ord(first) + idx)` (codepoints past the valid range, where `chr`
raises, and surrogates are approximated by `Char.ofNat`'s default). -/
def labelText (first : Char) (idx : Nat) : String := ⟨[Char.ofNat (first.toNat + idx)]⟩

def labelNode (args : Args) (idx : Nat) : Element :=
  .mk "text"
    [("x", .str "5"), ("y", .str "15"),
      ("font-size", .str (toString args.panel_label_font_size)),
      ("font-weight", .str "bold"), ("font-family", .str "Arial, sans-serif")]
    (some (labelText args.panel_label_first idx)) .nil

/-- One panel group (lines 339-366): a translate-only `g` wrapper holding
the panel's children, plus the optional label appended last. -/
def panelGroup (args : Args) (cellW cellH colGap rowGap : ℚ) (idx : Nat) (p : Element) :
    Element :=
  let row := idx / args.max_per_row
  let col := idx % args.max_per_row
  let x := args.outer_pad + (col : ℚ) * (cellW + colGap)
  let y := args.outer_pad + (row : ℚ) * (cellH + rowGap)
  .mk "g" [("transform", .trNum x y)] none
    (p.children.append
      (if args.add_panel_label then .cons (labelNode args idx) .nil else .nil))

def buildGroups (args : Args) (cellW cellH colGap rowGap : ℚ) :
    Nat → List Element → List Element
  | _, [] => []
  | idx, p :: rest =>
    panelGroup args cellW cellH colGap rowGap idx p ::
      buildGroups args cellW cellH colGap rowGap (idx + 1) rest

/-- `main.py::create_composite_svg` from parsed panels, returning the
composite root and its total width/height (`args.max_per_row = 0` is the
`ZeroDivisionError` of the row computation). -/
def create_composite_svg (panels : List Element) (args : Args) :
    Option (Element × ℚ × ℚ) :=
  if panels.isEmpty then none
  else if args.max_per_row = 0 then none
  else do
    let panels2 ← cropStage args.crop panels
    let dims ← dimsStage panels2
    let numPanels := panels2.length
    let numRows := (numPanels + args.max_per_row - 1) / args.max_per_row
    let numCols := min numPanels args.max_per_row
    let (colGap, rowGap) := gapsStage args dims
    let (cellW, cellH) :=
      scaledCell args numCols colGap (maxOf1 (dims.map Prod.fst))
        (maxOf1 (dims.map Prod.snd))
    let totalW := (numCols : ℚ) * cellW + ((numCols - 1 : Nat) : ℚ) * colGap +
      2 * args.outer_pad
    let totalH := (numRows : ℚ) * cellH + ((numRows - 1 : Nat) : ℚ) * rowGap +
      2 * args.outer_pad
    let root := Element.mk nsSvgTag
      [("width", .num totalW), ("height", .num totalH),
        ("viewBox", .vbNum 0 0 totalW totalH)]
      none (ElementList.ofList (buildGroups args cellW cellH colGap rowGap 0 panels2))
    pure (root, totalW, totalH)

/-! ### `align_axes.py`

Its own, simpler transform parser (translation only), its own bounds
routine (translation-equivariant, `rect`/`line`/`text` primitives matched
by tag suffix), and the `patch-bottom` alignment pass.  Elements found by
`find_axes_groups` are identified by their child-index paths, since the
pass mutates them in place. -/

namespace AlignAxes

/-- Digits, `-` and `.`: the character class of `([-\d.]+)`. -/
def isTrChar (c : Char) : Bool := isDigitC c ∨ c = '-' ∨ c = '.'

/-- The part of `translate\s*\(\s*([-\d.]+)\s*,\s*([-\d.]+)\s*\)` after the
keyword (both greedy groups are deterministic before a required literal). -/
def alArgs (cs : List Char) : Option (List Char × List Char) :=
  match dropWsL cs with
  | '(' :: r0 =>
    let q1 := dropWsL r0
    let g1 := q1.takeWhile isTrChar
    if g1.isEmpty then none
    else
      match dropWsL (q1.drop g1.length) with
      | ',' :: r1 =>
        let q2 := dropWsL r1
        let g2 := q2.takeWhile isTrChar
        if g2.isEmpty then none
        else
          match dropWsL (q2.drop g2.length) with
          | ')' :: _ => some (g1, g2)
          | _ => none
      | _ => none
  | _ => none

/-- `align_axes.py::parse_transform` on a string (`none` = `ValueError`
from `float` on a matched group such as `-` or `.`). -/
def parse_transform (s : String) : Option (ℚ × ℚ) :=
  if s.data.isEmpty then some (0, 0)
  else
    match searchIn tKW alArgs s.data with
    | none => some (0, 0)
    | some (g1, g2) => do
      let a ← pyFloat g1
      let b ← pyFloat g2
      pure (a, b)

/-- The parser applied to a `transform` attribute value (absent is the
falsy default).  A `.trNum` value is the tool's own written
`translate(x, y)` string, which the regex recovers exactly for the
plain-decimal formatting the pass produces. -/
def trVal : Option AttrVal → Option (ℚ × ℚ)
  | none => some (0, 0)
  | some (.str s) => parse_transform s
  | some (.trNum x y) => some (x, y)
  | some (.num _) => some (0, 0)
  | some (.vbNum _ _ _ _) => some (0, 0)

/-- `element.tag.endswith(suffix)`. -/
def tagEnds (suffix : String) (tg : String) : Bool := hasTail suffix.data tg.data

mutual
/-- `align_axes.py::get_element_bounds` (`none` = `ValueError`,
`some none` = the `(inf, inf, -inf, -inf)` no-content sentinel). -/
def get_element_bounds : Element → (ℚ × ℚ) → Option (Option Box)
  | .mk tg as _ cs, t =>
    match trVal (assocFind "transform" as) with
    | none => none
    | some d =>
      match gebSelfA tg as (t.1 + d.1, t.2 + d.2) with
      | none => none
      | some sb => gebChildren cs (t.1 + d.1, t.2 + d.2) sb

/-- The element's own primitive contribution, by tag suffix
(lines 40-64). -/
def gebSelfA (tg : String) (as : List (String × AttrVal)) (t : ℚ × ℚ) :
    Option (Option Box) :=
  if tagEnds "rect" tg then do
    let x ← getF as "x"
    let y ← getF as "y"
    let w ← getF as "width"
    let h ← getF as "height"
    pure (some ⟨t.1 + x, t.2 + y, t.1 + x + w, t.2 + y + h⟩)
  else if tagEnds "line" tg then do
    let x1 ← getF as "x1"
    let y1 ← getF as "y1"
    let x2 ← getF as "x2"
    let y2 ← getF as "y2"
    pure (some ⟨min (t.1 + x1) (t.1 + x2), min (t.2 + y1) (t.2 + y2),
      max (t.1 + x1) (t.1 + x2), max (t.2 + y1) (t.2 + y2)⟩)
  else if tagEnds "text" tg then do
    let x ← getF as "x"
    let y ← getF as "y"
    pure (some ⟨t.1 + x, t.2 + y, t.1 + x, t.2 + y⟩)
  else pure none

/-- The child loop (lines 67-73): children are measured with the parent's
updated translation and merged unless they report the sentinel. -/
def gebChildren : ElementList → (ℚ × ℚ) → Option Box → Option (Option Box)
  | .nil, _, acc => some acc
  | .cons c cs, t, acc =>
    match get_element_bounds c t with
    | none => none
    | some none => gebChildren cs t acc
    | some (some cb) => gebChildren cs t (some (mergeB acc cb))
end

/-- The body of `get_element_bounds` after the transform update: own
primitive contribution then the child loop. -/
def gebCore (tg : String) (as : List (String × AttrVal)) (cs : ElementList)
    (t : ℚ × ℚ) : Option (Option Box) :=
  match gebSelfA tg as t with
  | none => none
  | some sb => gebChildren cs t sb

/-- `'axes' in id.lower() or 'axis' in id.lower()`. -/
def hasSub (pat : List Char) : List Char → Bool
  | [] => pat.isEmpty
  | c :: rest => hasLead pat (c :: rest) || hasSub pat rest

def toLowerL (cs : List Char) : List Char := cs.map Char.toLower

def idMatches (e : Element) : Bool :=
  match getAttr e "id" with
  | some (.str s) =>
    hasSub "axes".data (toLowerL s.data) || hasSub "axis".data (toLowerL s.data)
  | _ => false

mutual
/-- `find_axes_groups`, returning DFS preorder child-index paths of the
matching elements (self checked before children). -/
def findAxesPaths : Element → List (List Nat)
  | .mk tg as tx cs =>
    (if idMatches (.mk tg as tx cs) then [[]] else []) ++ findAxesPathsL cs 0

def findAxesPathsL : ElementList → Nat → List (List Nat)
  | .nil, _ => []
  | .cons c cs, i =>
    (findAxesPaths c).map (fun p => i :: p) ++ findAxesPathsL cs (i + 1)
end

/-- Subtree at a child-index path. -/
def subtreeAt (e : Element) : List Nat → Option Element
  | [] => some e
  | i :: rest =>
    match e.children.get i with
    | none => none
    | some c => subtreeAt c rest

/-- Replace child `i` (other children unchanged). -/
def setChild : ElementList → Nat → Element → ElementList
  | .nil, _, _ => .nil
  | .cons _ cs, 0, c' => .cons c' cs
  | .cons c cs, n + 1, c' => .cons c (setChild cs n c')

/-- `element.set(name, v)`: replace the first entry with that key in
place, else append. -/
def setAssoc (name : String) (v : AttrVal) : List (String × AttrVal) →
    List (String × AttrVal)
  | [] => [(name, v)]
  | (k, w) :: rest =>
    if k = name then (k, v) :: rest else (k, w) :: setAssoc name v rest

def setAttr (e : Element) (name : String) (v : AttrVal) : Element :=
  match e with
  | .mk tg as tx cs => .mk tg (setAssoc name v as) tx cs

/-- Set an attribute on the element at `path` (identity on a dangling
path, which the pass never produces). -/
def setAttrAt (e : Element) (path : List Nat) (name : String) (v : AttrVal) : Element :=
  match path with
  | [] => setAttr e name v
  | i :: rest =>
    match e.children.get i with
    | none => e
    | some c =>
      match e with
      | .mk tg as tx cs => .mk tg as tx (setChild cs i (setAttrAt c rest name v))

/-- `min(bounds[3] for bounds in axes_bounds)`. -/
def minBottom : List Box → ℚ
  | [] => 0
  | b :: bs => qMin b.maxY (bs.map Box.maxY)

/-- The mutation loop of the `patch-bottom` mode (lines 120-128), reading
each group's current transform at update time. -/
def patchLoop (minB : ℚ) : List (List Nat × Box) → Element → Option Element
  | [], acc => some acc
  | (p, b) :: rest, acc =>
    let offset := b.maxY - minB
    if 1/10 < |offset| then
      match subtreeAt acc p with
      | none => none
      | some g =>
        match trVal (getAttr g "transform") with
        | none => none
        | some (tx, ty) =>
          patchLoop minB rest (setAttrAt acc p "transform" (.trNum tx (ty - offset)))
    else patchLoop minB rest acc

/-- The bounds-collection loop over the located groups
(lines 110-113). -/
def collectBounds (root : Element) : List (List Nat) → Option (List Box)
  | [] => some []
  | p :: ps => do
    let g ← subtreeAt root p
    let ob ← get_element_bounds g (0, 0)
    let b ← ob
    let rest ← collectBounds root ps
    pure (b :: rest)

/-- `align_axes.py::align_svg_panels` restricted to the `patch-bottom`
mode, from the parsed tree (file I/O out of scope).  `none` covers the
"not enough axes groups" failure return, any exception (caught by the
source and turned into a failure return), and the untracked
float-infinity sentinel case of a group with no measured content, where
the source would write non-finite transforms. -/
def align_patch_bottom (root : Element) : Option Element :=
  let paths := findAxesPaths root
  if paths.length < 2 then none
  else do
    let bs ← collectBounds root paths
    patchLoop (minBottom bs) (paths.zip bs) root

end AlignAxes

/-! ### Sanity examples

Concrete evaluations of the embedded functions, checked by kernel
reduction. -/

def panel100x50 : Element := el "svg" [("width", .str "100"), ("height", .str "50")] []

def c2args : Args :=
  ⟨2, 10, 10, 0, false, false, none, some "nature", some "single", false, 'a', 12⟩

example :
    (create_composite_svg [panel100x50, panel100x50] c2args).map (fun r => r.2.1) =
      some (275890 / 889) := by decide

example : parse_transform "" = some ⟨0, 0, 1, 1⟩ :=
  by decide
example : parse_transform "translate(5,5)" = some ⟨5, 5, 1, 1⟩ :=
  by decide
example : parse_transform "scale(2)" = some ⟨0, 0, 2, 2⟩ :=
  by decide
example : parse_transform "translate(3.5, -2) scale(2, 4)" = some ⟨3.5, -2, 2, 4⟩ :=
  by decide
example : parse_transform "matrix(1, 0, 0, 2, 5, 6)" = some ⟨5, 6, 1, 2⟩ :=
  by decide
example : parse_transform "translate(abc)" = none :=
  by decide
example : parse_transform "rotate(30)" = some ⟨0, 0, 1, 1⟩ :=
  by decide

/-! ### Claim C3 -/

/-- C3, counterexample: the claim says `parse_transform` is total and
never raises, returning the identity on malformed input — but on
`translate(abc)` the translate regex matches with group `abc` and
`float('abc')` raises `ValueError`, so the function fails. -/
theorem c3_counterexample : parse_transform "translate(abc)" = none := by decide

/-- C3, amended: `parse_transform` returns the identity `(0, 0, 1, 1)` for
input in which none of the three transform forms matches (which includes
absent input); it is not total, since a matched form with a non-numeric
argument raises. -/
theorem c3_no_match_is_identity (s : String)
    (ht : searchIn tKW tsArgs s.data = none)
    (hs : searchIn sKW tsArgs s.data = none)
    (hm : searchIn mKW mxArgs s.data = none) :
    parse_transform s = some ⟨0, 0, 1, 1⟩ := by
  simp only [parse_transform, ht, hs, hm]
  cases hc : s.data.isEmpty <;> simp

/-- C3 witness: `rotate(30)` matches none of the forms and parses to the
identity. -/
theorem c3_no_match_is_identity_witness :
    parse_transform "rotate(30)" = some ⟨0, 0, 1, 1⟩ :=
  c3_no_match_is_identity "rotate(30)" (by decide) (by decide) (by decide)

/-! ### Claim C9 -/

/-- C9: whenever the matrix regex matches (with groups converting to the
floats `a b c d e f`), a successful `parse_transform` returns exactly
`(e, f, a, d)` — the matrix values overwrite whatever any `translate` or
`scale` form in the same string produced, in either textual order; the
forms are never composed. -/
theorem c9_matrix_overrides (s : String) (g1 g2 g3 g4 g5 g6 : List Char)
    (a b c d e f : ℚ) (r : Tf)
    (hm : searchIn mKW mxArgs s.data = some (g1, g2, g3, g4, g5, g6))
    (ha : pyFloat g1 = some a) (hb : pyFloat g2 = some b) (hc : pyFloat g3 = some c)
    (hd : pyFloat g4 = some d) (he : pyFloat g5 = some e) (hf : pyFloat g6 = some f)
    (hr : parse_transform s = some r) :
    r = ⟨e, f, a, d⟩ := by
  by_cases h0 : s.data.isEmpty = true
  · rw [List.isEmpty_iff] at h0
    rw [h0] at hm
    simp [searchIn] at hm
  · simp only [parse_transform, if_neg h0, Option.bind_eq_bind, hm, ha, hb, hc, hd, he, hf,
      Option.some_bind, Option.pure_def] at hr
    repeat split at hr
    all_goals simp_all [Option.bind_eq_some]
    all_goals (try obtain ⟨-, hr⟩ := hr)
    all_goals (try (repeat split at hr))
    all_goals (try simp_all [Option.bind_eq_some])
    all_goals (try obtain ⟨-, hr⟩ := hr)
    all_goals (try (repeat split at hr))
    all_goals (try simp_all [Option.bind_eq_some])
    all_goals (try obtain ⟨-, hr⟩ := hr)
    all_goals (try (repeat split at hr))
    all_goals (try simp_all [Option.bind_eq_some])

/-- C9 witness: `translate(9, 9) matrix(1, 2, 3, 4, 5, 6)` parses to
`(5, 6, 1, 4)`, entirely from the matrix. -/
theorem c9_matrix_overrides_witness : (⟨5, 6, 1, 4⟩ : Tf) = ⟨5, 6, 1, 4⟩ :=
  c9_matrix_overrides "translate(9, 9) matrix(1, 2, 3, 4, 5, 6)"
    "1".data "2".data "3".data "4".data "5".data "6".data 1 2 3 4 5 6 ⟨5, 6, 1, 4⟩
    (by decide) (by decide) (by decide) (by decide) (by decide) (by decide) (by decide)
    (by decide)

/-! ### Assoc-list helper lemmas -/

theorem assocFind_filter (pk : String → Bool) (n : String) (hn : pk n = true)
    (as : List (String × AttrVal)) :
    assocFind n (as.filter (fun p => pk p.1)) = assocFind n as := by
  induction as with
  | nil => rfl
  | cons p rest ih =>
    obtain ⟨k, v⟩ := p
    by_cases hk : k = n
    · subst hk
      simp [List.filter_cons, hn, assocFind]
    · by_cases hpk : pk k = true
      · simp [List.filter_cons, hpk, assocFind, hk, ih]
      · simp [List.filter_cons, hpk, assocFind, hk, ih]

theorem assocFind_filter_out (pk : String → Bool) (n : String) (hn : pk n = false)
    (as : List (String × AttrVal)) :
    assocFind n (as.filter (fun p => pk p.1)) = none := by
  induction as with
  | nil => rfl
  | cons p rest ih =>
    obtain ⟨k, v⟩ := p
    by_cases hpk : pk k = true
    · have hk : ¬ k = n := by
        intro h
        rw [h, hn] at hpk
        exact absurd hpk (by simp)
      simp [List.filter_cons, hpk, assocFind, hk, ih]
    · simp [List.filter_cons, hpk, ih]

/-- The primitive-bounds computation reads only non-`transform`
attributes. -/
theorem gcbSelf_congr (tg : String) (as1 as2 : List (String × AttrVal))
    (h : ∀ n, n ≠ "transform" → assocFind n as1 = assocFind n as2) :
    gcbSelf tg as1 = gcbSelf tg as2 := by
  have hg : ∀ n, n ≠ "transform" → getF as1 n = getF as2 n := by
    intro n hn
    unfold getF
    rw [h n hn]
  unfold gcbSelf
  rw [hg "x" (by decide), hg "y" (by decide), hg "width" (by decide),
    hg "height" (by decide), hg "cx" (by decide), hg "cy" (by decide), hg "r" (by decide),
    hg "rx" (by decide), hg "ry" (by decide), hg "x1" (by decide), hg "y1" (by decide),
    hg "x2" (by decide), hg "y2" (by decide), h "points" (by decide), h "d" (by decide)]

/-! ### Claim C1 -/

/-- C1: during bounds aggregation, a node carrying a (truthy, parseable)
local transform `(etx, ety, esx, esy)` is aggregated exactly as the same
node without its transform attribute under the scale-weighted composed
cumulative transform `(tx + etx·sx, ty + ety·sy, sx·esx, sy·esy)`; and
the scenario: a 10×10 rect at the origin under local `translate(5,5)`
inside a parent `scale(2)` yields cumulative bounds `(10, 10, 30, 30)`. -/
theorem c1_scale_weighted_composition :
    (∀ (tg : String) (as : List (String × AttrVal)) (tx : Option String)
        (cs : ElementList) (t l : Tf) (v : AttrVal),
        assocFind "transform" as = some v → attrTruthy v = true →
        parseTransformVal v = some l →
        get_content_bounds (.mk tg as tx cs) t =
          get_content_bounds (.mk tg (as.filter (fun p => p.1 != "transform")) tx cs)
            ⟨t.tx + l.tx * t.sx, t.ty + l.ty * t.sy, t.sx * l.sx, t.sy * l.sy⟩) ∧
    get_content_bounds
      (el "g" [("transform", .str "scale(2)")]
        [el "rect" [("transform", .str "translate(5,5)"), ("x", .str "0"), ("y", .str "0"),
          ("width", .str "10"), ("height", .str "10")] []]) ⟨0, 0, 1, 1⟩ =
      some (some ⟨10, 10, 30, 30⟩) := by
  refine ⟨?_, by decide⟩
  intro tg as tx cs t l v hv htr hl
  have h1 : childTf as t = some (composeTf t l) := by
    unfold childTf
    rw [hv]
    simp [htr, hl]
  have h2 : childTf (as.filter (fun p => p.1 != "transform")) (composeTf t l) =
      some (composeTf t l) := by
    unfold childTf
    rw [assocFind_filter_out (fun k => k != "transform") "transform" (by decide)]
  have h3 : gcbSelf tg (as.filter (fun p => p.1 != "transform")) = gcbSelf tg as := by
    apply gcbSelf_congr
    intro n hn
    exact assocFind_filter (fun k => k != "transform") n (by simpa using hn) as
  have hcomp : (⟨t.tx + l.tx * t.sx, t.ty + l.ty * t.sy, t.sx * l.sx, t.sy * l.sy⟩ : Tf) =
      composeTf t l := rfl
  rw [hcomp]
  simp only [get_content_bounds, h1, h2, h3]

/-- C1 witness: the general part at a rect with `translate(5,5)` under
parent cumulative `(0, 0, 2, 2)`. -/
theorem c1_scale_weighted_composition_witness :
    get_content_bounds
      (.mk "rect" [("transform", .str "translate(5,5)"), ("x", .str "0"), ("y", .str "0"),
        ("width", .str "10"), ("height", .str "10")] none .nil) ⟨0, 0, 2, 2⟩ =
      get_content_bounds
        (.mk "rect" (([("transform", .str "translate(5,5)"), ("x", .str "0"),
          ("y", .str "0"), ("width", .str "10"), ("height", .str "10")] :
            List (String × AttrVal)).filter (fun p => p.1 != "transform")) none .nil)
        ⟨0 + 5 * 2, 0 + 5 * 2, 2 * 1, 2 * 1⟩ :=
  c1_scale_weighted_composition.1 "rect"
    [("transform", .str "translate(5,5)"), ("x", .str "0"), ("y", .str "0"),
      ("width", .str "10"), ("height", .str "10")] none .nil ⟨0, 0, 2, 2⟩ ⟨5, 5, 1, 1⟩
    (.str "translate(5,5)") (by decide) (by decide) (by decide)

/-! ### Claim C4 -/

/-- C4, counterexample: the claim says boxes are re-normalized so that
min ≤ max on each axis even under a negative scale — but a rect of width
10 under `scale(-1)` comes back as `(0, 0, -10, -10)` with
`maxX = -10 < 0 = minX`: no re-normalization happens. -/
theorem c4_counterexample :
    get_content_bounds
      (el "rect" [("transform", .str "scale(-1)"), ("x", .str "0"), ("y", .str "0"),
        ("width", .str "10"), ("height", .str "10")] []) ⟨0, 0, 1, 1⟩ =
      some (some ⟨0, 0, -10, -10⟩) ∧ (-10 : ℚ) < 0 := by decide

/-- C4, amended: the four box coordinates are mapped through the
cumulative transform independently and returned as-is; for a rect of
positive width under a cumulative transform with negative `sx` the
returned X interval is flipped (`maxX < minX`), not re-normalized. -/
theorem c4_negative_scale_flips (x y w h : ℚ) (t : Tf) (hsx : t.sx < 0) (hw : 0 < w) :
    get_content_bounds
      (el "rect" [("x", .num x), ("y", .num y), ("width", .num w), ("height", .num h)] [])
      t =
      some (some ⟨x * t.sx + t.tx, y * t.sy + t.ty, (x + w) * t.sx + t.tx,
        (y + h) * t.sy + t.ty⟩) ∧
    (x + w) * t.sx + t.tx < x * t.sx + t.tx := by
  constructor
  · simp [get_content_bounds, el, ElementList.ofList, childTf, assocFind, gcbSelf, localTag,
      lastSegAux, getF, pyFloatVal, gcbChildren, mapBox]
  · have hx : x < x + w := by linarith
    have := mul_lt_mul_of_neg_right hx hsx
    linarith

/-- C4 witness: the amended statement at the `scale(-1)`-style cumulative
transform `(0, 0, -1, -1)` on a 10×10 rect at the origin. -/
theorem c4_negative_scale_flips_witness :
    get_content_bounds
      (el "rect" [("x", .num 0), ("y", .num 0), ("width", .num 10), ("height", .num 10)] [])
      ⟨0, 0, -1, -1⟩ =
      some (some ⟨0 * (-1) + 0, 0 * (-1) + 0, (0 + 10) * (-1) + 0, (0 + 10) * (-1) + 0⟩) ∧
    (0 + 10) * (-1 : ℚ) + 0 < 0 * (-1) + 0 :=
  c4_negative_scale_flips 0 0 10 10 ⟨0, 0, -1, -1⟩ (by norm_num) (by norm_num)

/-! ### Claim C5 -/

/-- Appending one child to the loop processes the original children first
and then merges the new child's bounds. -/
theorem gcbChildren_append_one : ∀ (l : ElementList) (c : Element) (t : Tf)
    (acc : Option Box),
    gcbChildren (l.append (.cons c .nil)) t acc =
      match gcbChildren l t acc with
      | none => none
      | some r =>
        match get_content_bounds c t with
        | none => none
        | some none => some r
        | some (some cb) => some (some (mergeB r cb))
  | .nil, c, t, acc => by
    simp only [ElementList.append, gcbChildren]
  | .cons e es, c, t, acc => by
    simp only [ElementList.append, gcbChildren]
    cases h : get_content_bounds e t with
    | none => rfl
    | some ob =>
      cases ob with
      | none => exact gcbChildren_append_one es c t acc
      | some cb => exact gcbChildren_append_one es c t (some (mergeB acc cb))

/-- C5: bounds aggregation is monotonic — appending one more child to a
node (whose aggregation succeeded with box `b`, and whose cumulative
transform the child evaluates under without raising) yields a box that
contains `b` componentwise; the merge takes componentwise min of minima
and max of maxima. -/
theorem c5_bounds_monotonic (tg : String) (as : List (String × AttrVal))
    (tx : Option String) (cs : ElementList) (t ct : Tf) (b : Box) (cb : Option Box)
    (c : Element)
    (h1 : get_content_bounds (.mk tg as tx cs) t = some (some b))
    (h2 : childTf as t = some ct)
    (h3 : get_content_bounds c ct = some cb) :
    ∃ b' : Box,
      get_content_bounds (.mk tg as tx (cs.append (.cons c .nil))) t = some (some b') ∧
      b' = cb.elim b (fun x => ⟨min b.minX x.minX, min b.minY x.minY,
        max b.maxX x.maxX, max b.maxY x.maxY⟩) ∧
      b'.minX ≤ b.minX ∧ b'.minY ≤ b.minY ∧ b.maxX ≤ b'.maxX ∧ b.maxY ≤ b'.maxY := by
  rcases h4 : gcbSelf tg as with _ | ob
  · simp only [get_content_bounds, h2, h4] at h1
    exact absurd h1 (by simp)
  · simp only [get_content_bounds, h2, h4] at h1 ⊢
    rw [gcbChildren_append_one, h1, h3]
    cases cb with
    | none => exact ⟨b, rfl, rfl, le_refl _, le_refl _, le_refl _, le_refl _⟩
    | some x =>
      refine ⟨mergeB (some b) x, rfl, rfl, ?_, ?_, ?_, ?_⟩ <;>
        simp [mergeB, min_le_left, le_max_left]

/-- C5 witness: a group with one unit rect, adding a rect at (5,5)-(6,6). -/
theorem c5_bounds_monotonic_witness :
    ∃ b' : Box,
      get_content_bounds
        (.mk "g" [] none
          ((ElementList.cons
              (el "rect" [("width", .num 1), ("height", .num 1)] []) .nil).append
            (.cons (el "rect" [("x", .num 5), ("y", .num 5), ("width", .num 1),
              ("height", .num 1)] []) .nil))) ⟨0, 0, 1, 1⟩ = some (some b') ∧
      b' = (some (⟨5, 5, 6, 6⟩ : Box)).elim (⟨0, 0, 1, 1⟩ : Box)
        (fun x => ⟨min (0:ℚ) x.minX, min (0:ℚ) x.minY, max (1:ℚ) x.maxX,
          max (1:ℚ) x.maxY⟩) ∧
      b'.minX ≤ (0 : ℚ) ∧ b'.minY ≤ (0 : ℚ) ∧ (1 : ℚ) ≤ b'.maxX ∧ (1 : ℚ) ≤ b'.maxY :=
  c5_bounds_monotonic "g" [] none
    (.cons (el "rect" [("width", .num 1), ("height", .num 1)] []) .nil) ⟨0, 0, 1, 1⟩
    ⟨0, 0, 1, 1⟩ ⟨0, 0, 1, 1⟩ (some ⟨5, 5, 6, 6⟩)
    (el "rect" [("x", .num 5), ("y", .num 5), ("width", .num 1), ("height", .num 1)] [])
    (by decide) (by decide) (by decide)

/-! ### Claim C6 -/

/-- A tag whose local name is `svg` has no intrinsic bounds. -/
theorem gcbSelf_svg (tg : String) (as : List (String × AttrVal))
    (h : localTag tg = "svg") : gcbSelf tg as = some none := by
  unfold gcbSelf
  rw [h]
  rfl

/-- The crop predicate keeps the `transform` attribute. -/
theorem assocFind_cropAttrs_transform (b : Box) (cw ch : ℚ)
    (as : List (String × AttrVal)) :
    assocFind "transform" (cropAttrs b cw ch as) = assocFind "transform" as := by
  unfold cropAttrs
  simp only [List.cons_append, List.nil_append, assocFind]
  rw [if_neg (by decide), if_neg (by decide), if_neg (by decide)]
  exact assocFind_filter notWHV "transform" (by decide) as

/-- The bounds of the cropped root equal the bounds of the original root
(same children, same `transform` attribute, both `svg` containers). -/
theorem gcb_cropped_eq (tg : String) (as : List (String × AttrVal)) (tx : Option String)
    (cs : ElementList) (b : Box) (cw ch : ℚ) (htag : localTag tg = "svg") :
    get_content_bounds (.mk nsSvgTag (cropAttrs b cw ch as) none cs) ⟨0, 0, 1, 1⟩ =
      get_content_bounds (.mk tg as tx cs) ⟨0, 0, 1, 1⟩ := by
  simp only [get_content_bounds]
  rw [show childTf (cropAttrs b cw ch as) ⟨0, 0, 1, 1⟩ = childTf as ⟨0, 0, 1, 1⟩ from by
      unfold childTf
      rw [assocFind_cropAttrs_transform]]
  rw [gcbSelf_svg nsSvgTag _ (by decide), gcbSelf_svg tg as htag]

/-- C6: cropping is idempotent — when the first crop succeeds (content
bounds exist and the root is an `svg` container), cropping the result
again returns the same width and height and an identical
`width`/`height`/`viewBox` coordinate frame, exactly (hence in particular
within any floating tolerance). -/
theorem c6_crop_idempotent (tg : String) (as : List (String × AttrVal))
    (tx : Option String) (cs : ElementList) (b : Box)
    (hb : get_content_bounds (.mk tg as tx cs) ⟨0, 0, 1, 1⟩ = some (some b))
    (htag : localTag tg = "svg") :
    ∃ r1 w h, crop_svg_to_content (.mk tg as tx cs) = some (r1, w, h) ∧
      ∃ r2, crop_svg_to_content r1 = some (r2, w, h) ∧
        getAttr r2 "width" = getAttr r1 "width" ∧
        getAttr r2 "height" = getAttr r1 "height" ∧
        getAttr r2 "viewBox" = getAttr r1 "viewBox" := by
  have hb2 : get_content_bounds
      (.mk nsSvgTag (cropAttrs b (b.maxX - b.minX) (b.maxY - b.minY) as) none cs)
      ⟨0, 0, 1, 1⟩ = some (some b) := by
    rw [gcb_cropped_eq tg as tx cs b _ _ htag, hb]
  refine ⟨.mk nsSvgTag (cropAttrs b (b.maxX - b.minX) (b.maxY - b.minY) as) none cs,
    b.maxX - b.minX, b.maxY - b.minY, ?_, ?_⟩
  · unfold crop_svg_to_content
    rw [hb]
    rfl
  · refine ⟨.mk nsSvgTag (cropAttrs b (b.maxX - b.minX) (b.maxY - b.minY)
      (cropAttrs b (b.maxX - b.minX) (b.maxY - b.minY) as)) none cs, ?_, rfl, rfl, rfl⟩
    unfold crop_svg_to_content
    rw [hb2]
    rfl

/-- C6 witness: an `svg` root holding a 4×3 rect, cropped twice. -/
theorem c6_crop_idempotent_witness :
    ∃ r1 w h, crop_svg_to_content
      (.mk "svg" [] none
        (.cons (el "rect" [("width", .num 4), ("height", .num 3)] []) .nil)) =
      some (r1, w, h) ∧
      ∃ r2, crop_svg_to_content r1 = some (r2, w, h) ∧
        getAttr r2 "width" = getAttr r1 "width" ∧
        getAttr r2 "height" = getAttr r1 "height" ∧
        getAttr r2 "viewBox" = getAttr r1 "viewBox" :=
  c6_crop_idempotent "svg" [] none
    (.cons (el "rect" [("width", .num 4), ("height", .num 3)] []) .nil) ⟨0, 0, 4, 3⟩
    (by decide) (by decide)

/-! ### Claim C2 -/

/-- C2, counterexample: in the claim's own scenario (two 100×50 panels,
`maxPerRow=2`, `colGap=10`, `outerPad=0`, nature/single → 89 mm), the
composite total width is 275890/889 ≈ 310.34 px, which differs from the
89 mm target (40050/127 ≈ 315.35 px) by about 5 px — far outside the
claimed 0.5 px tolerance, because the unscaled column gap is re-added
after the cell size is rescaled. -/
theorem c2_counterexample :
    pubWidthMM "nature" "single" = some 89 ∧
    (create_composite_svg [panel100x50, panel100x50] c2args).map (fun r => r.2.1) =
      some (275890 / 889) ∧
    1 / 2 < |(275890 : ℚ) / 889 - mm_to_px 89| := by
  refine ⟨by decide, by decide, by decide⟩

/-- C2, amended: the emitted composite's total width equals the
publisher target `W·90/25.4` px exactly when the effective column gap is
zero (here forced by `tight`) and the outer padding is zero, for any
panels with a positive maximum content width; with a nonzero gap the
target is missed, since the gap is not rescaled (see the
counterexample). -/
theorem c2_zero_gap_width_matches_target (panels panels2 : List Element) (args : Args)
    (dims : List (ℚ × ℚ)) (pub lay : String) (mm : ℚ)
    (hne : panels.isEmpty = false) (hmpr : args.max_per_row ≠ 0)
    (hcrop : cropStage args.crop panels = some panels2)
    (hdims : dimsStage panels2 = some dims)
    (hne2 : panels2.length ≠ 0)
    (htight : args.tight = true) (hpad : args.outer_pad = 0)
    (hpub : args.outer_publisher = some pub) (hlay : args.outer_layout = some lay)
    (hmm : pubWidthMM pub lay = some mm) (hmm0 : mm ≠ 0)
    (hw : 0 < maxOf1 (dims.map Prod.fst)) :
    (create_composite_svg panels args).map (fun r => r.2.1) = some (mm_to_px mm) := by
  have hcols : 0 < min panels2.length args.max_per_row :=
    lt_min_iff.mpr ⟨Nat.pos_of_ne_zero hne2, Nat.pos_of_ne_zero hmpr⟩
  have hQ : 0 < ((min panels2.length args.max_per_row : Nat) : ℚ) := by
    exact_mod_cast hcols
  have hQW : 0 < ((min panels2.length args.max_per_row : Nat) : ℚ) *
      maxOf1 (dims.map Prod.fst) := mul_pos hQ hw
  simp only [create_composite_svg, hne, Bool.false_eq_true, if_false, if_neg hmpr,
    hcrop, hdims, Option.some_bind, Option.bind_eq_bind, gapsStage, htight, if_pos rfl,
    scaledCell, hpub, hlay, hmm, hpad, Option.map_some]
  rw [if_pos hmm0]
  simp only [mul_zero, add_zero]
  rw [if_pos (by simpa using hQW)]
  field_simp
  ring

/-- C2 witness: two 100×50 panels with `tight`, zero padding, and the
nature/single 89 mm target give total width exactly `mm_to_px 89`. -/
theorem c2_zero_gap_width_matches_target_witness :
    (create_composite_svg [panel100x50, panel100x50]
      ⟨2, 10, 10, 0, false, true, none, some "nature", some "single", false, 'a', 12⟩).map
        (fun r => r.2.1) = some (mm_to_px 89) :=
  c2_zero_gap_width_matches_target [panel100x50, panel100x50]
    [panel100x50, panel100x50]
    ⟨2, 10, 10, 0, false, true, none, some "nature", some "single", false, 'a', 12⟩
    [(100, 50), (100, 50)] "nature" "single" 89 (by decide) (by decide) rfl
    (by decide) (by decide) (by decide) (by decide) (by decide) (by decide) (by decide)
    (by norm_num) (by decide)

/-! ### Claim C7 -/

/-- C7, counterexample: the claim says an unpaired trailing number is
dropped (so `points="0,0 99"` would give box `(0, 0, 0, 0)` from the pair
`(0, 0)`); the code instead puts the trailing 99 in the x stream and
returns `(0, 0, 99, 0)`. -/
theorem c7_counterexample :
    get_content_bounds (el "polygon" [("points", .str "0,0 99")] []) ⟨0, 0, 1, 1⟩ =
      some (some ⟨0, 0, 99, 0⟩) ∧
    (⟨0, 0, 99, 0⟩ : Box) ≠ ⟨0, 0, 0, 0⟩ := by decide

/-- C7, amended: the `points` numbers are split by even/odd position into
x/y streams (so an unpaired trailing number lands in the x stream rather
than being dropped — shown here for any three-number attribute); the
scenario `points="0,0 10,0 5,10"` gives `(0, 0, 10, 10)`; an empty
`points` gives absent bounds, which contribute nothing to a parent
merge. -/
theorem c7_odd_trailing_in_x_stream :
    (∀ (s : String) (n1 n2 n3 : ℚ), pyFindNums s.data = [n1, n2, n3] →
      get_content_bounds (el "polygon" [("points", .str s)] []) ⟨0, 0, 1, 1⟩ =
        some (some ⟨min n1 n3, n2, max n1 n3, n2⟩)) ∧
    get_content_bounds (el "polygon" [("points", .str "0,0 10,0 5,10")] []) ⟨0, 0, 1, 1⟩ =
      some (some ⟨0, 0, 10, 10⟩) ∧
    get_content_bounds (el "polygon" [("points", .str "")] []) ⟨0, 0, 1, 1⟩ = some none ∧
    get_content_bounds
      (el "g" [] [el "polygon" [("points", .str "")] [],
        el "rect" [("width", .num 3), ("height", .num 4)] []]) ⟨0, 0, 1, 1⟩ =
      some (some ⟨0, 0, 3, 4⟩) := by
  refine ⟨?_, by decide, by decide, by decide⟩
  intro s n1 n2 n3 hn
  have hne : ¬ s.data = [] := by
    intro h
    rw [h] at hn
    simp [pyFindNums, scanNumsAux] at hn
  simp [get_content_bounds, el, ElementList.ofList, childTf, assocFind, gcbSelf, localTag,
    lastSegAux, polyBounds, attrTruthy, numsOfVal, hn, evenOddBox, evenIdx, oddIdx,
    qMin, qMax, gcbChildren, mapBox, List.isEmpty_iff, hne]

/-- C7 witness: the general part at `points="0,0 99"`. -/
theorem c7_odd_trailing_in_x_stream_witness :
    get_content_bounds (el "polygon" [("points", .str "0,0 99")] []) ⟨0, 0, 1, 1⟩ =
      some (some ⟨min 0 99, 0, max 0 99, 0⟩) :=
  c7_odd_trailing_in_x_stream.1 "0,0 99" 0 0 99 (by decide)

/-! ### Claim C10 -/

/-- C10: when exactly one of the width/height attributes parses to a
number and the other is absent (or fails to parse) while a four-part
`viewBox` is present, both returned dimensions come from the viewBox's
third and fourth numbers — the successfully parsed attribute value is
discarded. -/
theorem c10_viewbox_overrides_partial_dims (root : Element) (q c d : ℚ) (vb : AttrVal)
    (hvb : getAttr root "viewBox" = some vb) (htr : attrTruthy vb = true)
    (hcd : vbCD vb = some (some (c, d)))
    (hwh : (dimRead root "width" = some (some q) ∧
        (dimRead root "height" = none ∨ dimRead root "height" = some none)) ∨
      (dimRead root "height" = some (some q) ∧
        (dimRead root "width" = none ∨ dimRead root "width" = some none))) :
    parse_svg_dimensions root = some (some c, some d) := by
  unfold parse_svg_dimensions
  rcases hwh with ⟨hw, hh | hh⟩ | ⟨hh, hw | hw⟩ <;>
    rw [hw, hh] <;> simp [hvb, htr, hcd]

/-- C10 witness: numeric `width="100"`, absent height, and
`viewBox="0 0 30 40"` give dimensions `(30, 40)`. -/
theorem c10_viewbox_overrides_partial_dims_witness :
    parse_svg_dimensions
      (el "svg" [("width", .str "100"), ("viewBox", .str "0 0 30 40")] []) =
      some (some 30, some 40) :=
  c10_viewbox_overrides_partial_dims
    (el "svg" [("width", .str "100"), ("viewBox", .str "0 0 30 40")] [])
    100 30 40 (.str "0 0 30 40") (by decide) (by decide) (by decide)
    (Or.inl ⟨by decide, Or.inr (by decide)⟩)

/-! ### Claim C8: helper lemmas -/

namespace AlignAxes

/-- Componentwise translation of a box. -/
def shiftBox (dx dy : ℚ) (b : Box) : Box :=
  ⟨b.minX + dx, b.minY + dy, b.maxX + dx, b.maxY + dy⟩

theorem get_setChild : ∀ (cs : ElementList) (i j : Nat) (c' : Element),
    (setChild cs i c').get j =
      if i = j then (cs.get j).map (fun _ => c') else cs.get j
  | .nil, i, j, c' => by
    simp only [setChild, ElementList.get, Option.map_none]
    split <;> rfl
  | .cons c cs, 0, 0, c' => rfl
  | .cons c cs, 0, j + 1, c' => by simp [setChild, ElementList.get]
  | .cons c cs, i + 1, 0, c' => by simp [setChild, ElementList.get]
  | .cons c cs, i + 1, j + 1, c' => by
    simp only [setChild, ElementList.get, get_setChild cs i j c']
    by_cases h : i = j
    · simp [h]
    · simp [h, fun hh => h (Nat.succ_injective hh)]

theorem subtreeAt_setAttrAt_disj : ∀ (e : Element) (q p : List Nat) (n : String)
    (v : AttrVal), hasLead q p = false → hasLead p q = false →
    subtreeAt (setAttrAt e q n v) p = subtreeAt e p
  | _, [], p, _, _, hq, _ => by simp [hasLead] at hq
  | _, _ :: _, [], _, _, _, hp => by simp [hasLead] at hp
  | e, j :: q', i :: p', n, v, hq, hp => by
    cases e with
    | mk tg as tx cs =>
      simp only [setAttrAt, Element.children]
      cases hc : cs.get j with
      | none => rfl
      | some c =>
        simp only [subtreeAt, Element.children, get_setChild]
        by_cases hij : j = i
        · subst hij
          rw [if_pos rfl, hc]
          simp only [Option.map_some, hc]
          have hq' : hasLead q' p' = false := by simpa [hasLead] using hq
          have hp' : hasLead p' q' = false := by simpa [hasLead] using hp
          exact subtreeAt_setAttrAt_disj c q' p' n v hq' hp'
        · rw [if_neg hij]

theorem subtreeAt_setAttrAt_self : ∀ (e : Element) (p : List Nat) (n : String)
    (v : AttrVal),
    subtreeAt (setAttrAt e p n v) p = (subtreeAt e p).map (fun g => setAttr g n v)
  | e, [], n, v => rfl
  | e, i :: p', n, v => by
    cases e with
    | mk tg as tx cs =>
      simp only [setAttrAt, Element.children]
      cases hc : cs.get i with
      | none =>
        simp [subtreeAt, Element.children, hc]
      | some c =>
        simp only [subtreeAt, Element.children, get_setChild, if_pos rfl, hc,
          Option.map_some]
        exact subtreeAt_setAttrAt_self c p' n v

theorem assocFind_setAssoc_self : ∀ (n : String) (v : AttrVal)
    (as : List (String × AttrVal)), assocFind n (setAssoc n v as) = some v
  | n, v, [] => by simp [setAssoc, assocFind]
  | n, v, (k, w) :: rest => by
    by_cases h : k = n
    · simp only [setAssoc, if_pos h, assocFind, if_pos h]
    · simp only [setAssoc, if_neg h, assocFind, if_neg h]
      exact assocFind_setAssoc_self n v rest

theorem assocFind_setAssoc_ne : ∀ (n m : String) (v : AttrVal)
    (as : List (String × AttrVal)), m ≠ n →
    assocFind m (setAssoc n v as) = assocFind m as
  | n, m, v, [], h => by simp [setAssoc, assocFind, Ne.symm h]
  | n, m, v, (k, w) :: rest, h => by
    by_cases hk : k = n
    · have hkm : ¬ k = m := by rw [hk]; exact Ne.symm h
      simp only [setAssoc, if_pos hk, assocFind, if_neg hkm]
    · by_cases hm : k = m
      · simp only [setAssoc, if_neg hk, assocFind, if_pos hm]
      · simp only [setAssoc, if_neg hk, assocFind, if_neg hm]
        exact assocFind_setAssoc_ne n m v rest h

theorem mergeB_shift (acc : Option Box) (cb : Box) (dx dy : ℚ) :
    mergeB (acc.map (shiftBox dx dy)) (shiftBox dx dy cb) =
      shiftBox dx dy (mergeB acc cb) := by
  cases acc with
  | none => rfl
  | some b =>
    simp [Option.map_some, mergeB, shiftBox, min_add_add_right, max_add_add_right]

/-- The primitive contribution is translation-equivariant. -/
theorem gebSelf_shift (tg : String) (as : List (String × AttrVal)) (a b dx dy : ℚ) :
    gebSelfA tg as (a + dx, b + dy) =
      (gebSelfA tg as (a, b)).map (Option.map (shiftBox dx dy)) := by
  unfold gebSelfA
  by_cases h1 : tagEnds "rect" tg = true
  · simp only [h1, if_true]
    cases hx : getF as "x" with
    | none => rfl
    | some x =>
      cases hy : getF as "y" with
      | none => rfl
      | some y =>
        cases hw : getF as "width" with
        | none => rfl
        | some w =>
          cases hh : getF as "height" with
          | none => rfl
          | some hv =>
            show (some (some (⟨a + dx + x, b + dy + y, a + dx + x + w,
                b + dy + y + hv⟩ : Box)) : Option (Option Box)) =
              some (some (shiftBox dx dy ⟨a + x, b + y, a + x + w, b + y + hv⟩))
            simp only [shiftBox, Option.some.injEq, Box.mk.injEq]
            and_intros <;> ring
  · simp only [h1, if_false]
    by_cases h2 : tagEnds "line" tg = true
    · simp only [h2, if_true]
      cases hx1 : getF as "x1" with
      | none => rfl
      | some x1 =>
        cases hy1 : getF as "y1" with
        | none => rfl
        | some y1 =>
          cases hx2 : getF as "x2" with
          | none => rfl
          | some x2 =>
            cases hy2 : getF as "y2" with
            | none => rfl
            | some y2 =>
              show (some (some (⟨min (a + dx + x1) (a + dx + x2),
                  min (b + dy + y1) (b + dy + y2), max (a + dx + x1) (a + dx + x2),
                  max (b + dy + y1) (b + dy + y2)⟩ : Box)) : Option (Option Box)) =
                some (some (shiftBox dx dy ⟨min (a + x1) (a + x2), min (b + y1) (b + y2),
                  max (a + x1) (a + x2), max (b + y1) (b + y2)⟩))
              have e1 : ∀ u : ℚ, a + dx + u = a + u + dx := fun u => by ring
              have e2 : ∀ u : ℚ, b + dy + u = b + u + dy := fun u => by ring
              simp only [shiftBox, Option.some.injEq, Box.mk.injEq, e1, e2,
                min_add_add_right, max_add_add_right]
    · simp only [h2, if_false]
      by_cases h3 : tagEnds "text" tg = true
      · simp only [h3, if_true]
        cases hx : getF as "x" with
        | none => rfl
        | some x =>
          cases hy : getF as "y" with
          | none => rfl
          | some y =>
            show (some (some (⟨a + dx + x, b + dy + y, a + dx + x,
                b + dy + y⟩ : Box)) : Option (Option Box)) =
              some (some (shiftBox dx dy ⟨a + x, b + y, a + x, b + y⟩))
            simp only [shiftBox, Option.some.injEq, Box.mk.injEq]
            and_intros <;> ring
      · simp only [h3, if_false]
        rfl

mutual
theorem geb_shift : ∀ (e : Element) (a b dx dy : ℚ),
    get_element_bounds e (a + dx, b + dy) =
      (get_element_bounds e (a, b)).map (Option.map (shiftBox dx dy))
  | .mk tg as tx cs, a, b, dx, dy => by
    unfold get_element_bounds
    cases h : trVal (assocFind "transform" as) with
    | none => rfl
    | some d =>
      show gebCore tg as cs (a + dx + d.1, b + dy + d.2) =
        (gebCore tg as cs (a + d.1, b + d.2)).map (Option.map (shiftBox dx dy))
      have e1 : a + dx + d.1 = (a + d.1) + dx := by ring
      have e2 : b + dy + d.2 = (b + d.2) + dy := by ring
      rw [e1, e2]
      unfold gebCore
      rw [gebSelf_shift]
      cases h2 : gebSelfA tg as (a + d.1, b + d.2) with
      | none => rfl
      | some sb =>
        simp only [Option.map_some']
        exact gebChildren_shift cs (a + d.1) (b + d.2) dx dy sb

theorem gebChildren_shift : ∀ (cs : ElementList) (a b dx dy : ℚ) (acc : Option Box),
    gebChildren cs (a + dx, b + dy) (acc.map (shiftBox dx dy)) =
      (gebChildren cs (a, b) acc).map (Option.map (shiftBox dx dy))
  | .nil, a, b, dx, dy, acc => by simp [gebChildren]
  | .cons c cs', a, b, dx, dy, acc => by
    unfold gebChildren
    rw [geb_shift c a b dx dy]
    cases h : get_element_bounds c (a, b) with
    | none => rfl
    | some ob =>
      cases ob with
      | none =>
        simp only [Option.map_some']
        exact gebChildren_shift cs' a b dx dy acc
      | some cb =>
        simp only [Option.map_some']
        rw [mergeB_shift]
        exact gebChildren_shift cs' a b dx dy (some (mergeB acc cb))
end

theorem gebCore_shift (tg : String) (as : List (String × AttrVal)) (cs : ElementList)
    (a b dx dy : ℚ) :
    gebCore tg as cs (a + dx, b + dy) =
      (gebCore tg as cs (a, b)).map (Option.map (shiftBox dx dy)) := by
  unfold gebCore
  rw [gebSelf_shift]
  cases h : gebSelfA tg as (a, b) with
  | none => rfl
  | some sb =>
    simp only [Option.map_some']
    exact gebChildren_shift cs a b dx dy sb

/-- Setting the `transform` attribute does not change the primitive
contribution (it reads only coordinate attributes). -/
theorem gebSelfA_setTransform (tg : String) (v : AttrVal)
    (as : List (String × AttrVal)) (t : ℚ × ℚ) :
    gebSelfA tg (setAssoc "transform" v as) t = gebSelfA tg as t := by
  have hg : ∀ n, n ≠ "transform" → getF (setAssoc "transform" v as) n = getF as n := by
    intro n hn
    unfold getF
    rw [assocFind_setAssoc_ne _ _ _ _ hn]
  unfold gebSelfA
  rw [hg "x" (by decide), hg "y" (by decide), hg "width" (by decide),
    hg "height" (by decide), hg "x1" (by decide), hg "y1" (by decide),
    hg "x2" (by decide), hg "y2" (by decide)]

/-- Rewriting a group's transform to `translate(tx, ty')`, when its old
transform parsed as `(tx, ty)`, shifts its measured bounds by
`ty' - ty` vertically. -/
theorem geb_setTransform (tg : String) (as : List (String × AttrVal))
    (tx0 : Option String) (cs : ElementList) (tx ty ty' : ℚ) (ob : Option Box)
    (ht : trVal (assocFind "transform" as) = some (tx, ty))
    (hb : get_element_bounds (.mk tg as tx0 cs) (0, 0) = some ob) :
    get_element_bounds (setAttr (.mk tg as tx0 cs) "transform" (.trNum tx ty')) (0, 0) =
      some (ob.map (shiftBox 0 (ty' - ty))) := by
  have h1 : gebCore tg as cs (0 + tx, 0 + ty) = some ob := by
    unfold get_element_bounds at hb
    rw [ht] at hb
    exact hb
  show get_element_bounds (.mk tg (setAssoc "transform" (.trNum tx ty') as) tx0 cs)
      (0, 0) = _
  unfold get_element_bounds
  rw [assocFind_setAssoc_self]
  show gebCore tg (setAssoc "transform" (.trNum tx ty') as) cs (0 + tx, 0 + ty') = _
  have hcore : gebCore tg (setAssoc "transform" (.trNum tx ty') as) cs
      (0 + tx, 0 + ty') = gebCore tg as cs (0 + tx, 0 + ty') := by
    unfold gebCore
    rw [gebSelfA_setTransform]
  rw [hcore]
  have e2 : (0 : ℚ) + ty' = (0 + ty) + (ty' - ty) := by ring
  have e1 : (0 : ℚ) + tx = (0 + tx) + 0 := by ring
  rw [e2, e1, gebCore_shift tg as cs (0 + tx) (0 + ty) 0 (ty' - ty), h1]
  rfl

/-- Updates of the patch loop at paths disjoint from `p` do not change the
subtree at `p`. -/
theorem patchLoop_preserves : ∀ (minB : ℚ) (L : List (List Nat × Box))
    (acc res : Element) (p : List Nat),
    patchLoop minB L acc = some res →
    (∀ qb ∈ L, hasLead qb.1 p = false ∧ hasLead p qb.1 = false) →
    subtreeAt res p = subtreeAt acc p
  | minB, [], acc, res, p, hrun, _ => by
    simp only [patchLoop, Option.some.injEq] at hrun
    rw [← hrun]
  | minB, (q, b) :: rest, acc, res, p, hrun, hdisj => by
    unfold patchLoop at hrun
    by_cases hcond : 1 / 10 < |b.maxY - minB|
    · rw [if_pos hcond] at hrun
      split at hrun
      next => exact absurd hrun (by simp)
      next g hg =>
        split at hrun
        next => exact absurd hrun (by simp)
        next tx ty htv =>
          have step := patchLoop_preserves minB rest _ res p hrun
            (fun qb hq => hdisj qb (List.mem_cons_of_mem _ hq))
          rw [step]
          exact subtreeAt_setAttrAt_disj acc q p _ _
            (hdisj (q, b) (List.mem_cons_self _ _)).1
            (hdisj (q, b) (List.mem_cons_self _ _)).2
    · rw [if_neg hcond] at hrun
      exact patchLoop_preserves minB rest acc res p hrun
        (fun qb hq => hdisj qb (List.mem_cons_of_mem _ hq))

/-- What the patch loop does to each listed group, when its paths are
pairwise non-nested: a group farther than ε = 0.1 from the minimum gets
its transform replaced by `translate(tx, ty - offset)` (where `(tx, ty)`
is its old parsed transform), the rest stay untouched. -/
theorem patchLoop_spec : ∀ (minB : ℚ) (L : List (List Nat × Box)) (acc res : Element),
    patchLoop minB L acc = some res →
    List.Pairwise (fun ab cd => hasLead ab.1 cd.1 = false ∧ hasLead cd.1 ab.1 = false) L →
    ∀ pb ∈ L,
      (if 1 / 10 < |pb.2.maxY - minB| then
        ∃ g txy, subtreeAt acc pb.1 = some g ∧
          trVal (getAttr g "transform") = some txy ∧
          subtreeAt res pb.1 = some (setAttr g "transform"
            (.trNum txy.1 (txy.2 - (pb.2.maxY - minB))))
      else subtreeAt res pb.1 = subtreeAt acc pb.1)
  | minB, [], acc, res, hrun, hpw, pb, hmem => by simp at hmem
  | minB, (q, b) :: rest, acc, res, hrun, hpw, pb, hmem => by
    rcases List.pairwise_cons.mp hpw with ⟨hhead, htail⟩
    unfold patchLoop at hrun
    by_cases hcond : 1 / 10 < |b.maxY - minB|
    · rw [if_pos hcond] at hrun
      split at hrun
      next => exact absurd hrun (by simp)
      next g hg =>
        split at hrun
        next => exact absurd hrun (by simp)
        next tx ty htv =>
          rcases List.mem_cons.mp hmem with hpb | hpb
          · subst hpb
            rw [if_pos hcond]
            refine ⟨g, (tx, ty), hg, htv, ?_⟩
            have hpres : subtreeAt res q =
                subtreeAt (setAttrAt acc q "transform"
                  (.trNum tx (ty - (b.maxY - minB)))) q :=
              patchLoop_preserves minB rest _ res q hrun
                (fun qb hq => ⟨(hhead qb hq).2, (hhead qb hq).1⟩)
            rw [hpres, subtreeAt_setAttrAt_self, hg]
            rfl
          · have ih := patchLoop_spec minB rest _ res hrun htail pb hpb
            have hsub : subtreeAt (setAttrAt acc q "transform"
                (.trNum tx (ty - (b.maxY - minB)))) pb.1 = subtreeAt acc pb.1 :=
              subtreeAt_setAttrAt_disj acc q pb.1 _ _
                (hhead pb hpb).1 (hhead pb hpb).2
            rw [hsub] at ih
            exact ih
    · rw [if_neg hcond] at hrun
      rcases List.mem_cons.mp hmem with hpb | hpb
      · subst hpb
        rw [if_neg hcond]
        exact patchLoop_preserves minB rest acc res q hrun
          (fun qb hq => ⟨(hhead qb hq).2, (hhead qb hq).1⟩)
      · exact patchLoop_spec minB rest acc res hrun htail pb hpb

/-- Each zipped (path, box) pair of a successful bounds collection names a
group whose measured bounds are that box. -/
theorem collectBounds_mem : ∀ (root : Element) (ps : List (List Nat)) (bs : List Box),
    collectBounds root ps = some bs →
    ∀ pb ∈ ps.zip bs, ∃ g, subtreeAt root pb.1 = some g ∧
      get_element_bounds g (0, 0) = some (some pb.2)
  | root, [], bs, h, pb, hmem => by simp at hmem
  | root, p :: ps', bs, h, pb, hmem => by
    unfold collectBounds at h
    simp only [Option.bind_eq_bind, Option.bind_eq_some, Option.pure_def,
      Option.some.injEq] at h
    obtain ⟨g, hg, ob, hob, b0, hb0, rest, hrest, hbs⟩ := h
    subst hb0
    subst hbs
    rw [List.zip_cons_cons] at hmem
    rcases List.mem_cons.mp hmem with hpb | hpb
    · subst hpb
      exact ⟨g, hg, hob⟩
    · exact collectBounds_mem root ps' rest hrest pb hpb

/-- Pairwise relations on the left lift along `zip`. -/
theorem pairwise_zip_left {α β : Type} (R : α → α → Prop) :
    ∀ (l : List α) (l2 : List β), List.Pairwise R l →
      List.Pairwise (fun a b => R a.1 b.1) (l.zip l2)
  | [], _, _ => by simp
  | _ :: _, [], _ => by simp
  | a :: l, b :: l2, h => by
    rw [List.zip_cons_cons]
    rcases List.pairwise_cons.mp h with ⟨hhead, htail⟩
    refine List.pairwise_cons.mpr ⟨?_, pairwise_zip_left R l l2 htail⟩
    intro cd hcd
    obtain ⟨c, d⟩ := cd
    exact hhead c (List.of_mem_zip hcd).1

/-! ### Claim C8 -/

/-- A composite with nested axes groups (`axesB` inside `axesA`) and a
shorter sibling `axesC`. -/
def nestedAlignTree : Element :=
  el "svg" []
    [el "g" [("id", .str "axesA")]
      [el "g" [("id", .str "axesB")]
        [el "rect" [("width", .num 10), ("height", .num 10)] []]],
     el "g" [("id", .str "axesC")]
      [el "rect" [("width", .num 10), ("height", .num 5)] []]]

/-- C8, counterexample: with nested axes groups the pass shifts both the
outer group and its inner group by their full offsets, so the outer
group's content moves twice: after the pass the per-group bottoms are
`[0, 5, 5]`, and a spread of 5 is not within the ε = 0.1 of the claim —
the claim fails on composites whose located groups nest. -/
theorem c8_counterexample :
    ((align_patch_bottom nestedAlignTree).bind (fun r =>
      collectBounds r (findAxesPaths r))).map (List.map Box.maxY) =
      some [0, 5, 5] ∧
    ¬ (|(5 : ℚ) - 0| ≤ 1 / 10) := by
  refine ⟨by decide, by norm_num⟩

/-- C8, amended: when no located axes group is nested inside another
(pairwise non-prefix paths) and the pass succeeds, every group's
measured bottom after the pass is within ε = 0.1 of the pre-pass minimum
bottom: groups farther than ε are shifted to it exactly, the others are
left unchanged. -/
theorem c8_nonnested_bottoms_align (root root' : Element) (bs : List Box)
    (hnest : List.Pairwise (fun p q => hasLead p q = false ∧ hasLead q p = false)
      (findAxesPaths root))
    (hbs : collectBounds root (findAxesPaths root) = some bs)
    (hrun : align_patch_bottom root = some root') :
    ∀ pb ∈ (findAxesPaths root).zip bs,
      ∃ g' b', subtreeAt root' pb.1 = some g' ∧
        get_element_bounds g' (0, 0) = some (some b') ∧
        |b'.maxY - minBottom bs| ≤ 1 / 10 := by
  intro pb hmem
  unfold align_patch_bottom at hrun
  by_cases hlen : (findAxesPaths root).length < 2
  · rw [if_pos hlen] at hrun
    exact absurd hrun (by simp)
  · rw [if_neg hlen] at hrun
    rw [hbs] at hrun
    simp only [Option.bind_eq_bind, Option.some_bind] at hrun
    have hspec := patchLoop_spec (minBottom bs) _ root root' hrun
      (pairwise_zip_left _ _ _ hnest) pb hmem
    obtain ⟨g, hg, hgb⟩ := collectBounds_mem root _ bs hbs pb hmem
    by_cases hcond : 1 / 10 < |pb.2.maxY - minBottom bs|
    · rw [if_pos hcond] at hspec
      obtain ⟨g0, txy, hg0, htv, hres⟩ := hspec
      rw [hg] at hg0
      have hgg : g0 = g := (Option.some.inj hg0).symm
      subst hgg
      cases g0 with
      | mk tg as tx0 cs =>
        have hb' := geb_setTransform tg as tx0 cs txy.1 txy.2
          (txy.2 - (pb.2.maxY - minBottom bs)) (some pb.2) htv hgb
        refine ⟨_, shiftBox 0 ((txy.2 - (pb.2.maxY - minBottom bs)) - txy.2) pb.2,
          hres, ?_, ?_⟩
        · rw [hb']
          rfl
        · have hm : (shiftBox 0 ((txy.2 - (pb.2.maxY - minBottom bs)) - txy.2)
              pb.2).maxY = minBottom bs := by
            simp only [shiftBox]
            ring
          rw [hm]
          simp
    · rw [if_neg hcond] at hspec
      refine ⟨g, pb.2, ?_, hgb, not_lt.mp hcond⟩
      rw [hspec]
      exact hg

/-- Two sibling (non-nested) axes groups of bottoms 10 and 5. -/
def siblingAlignTree : Element :=
  el "svg" []
    [el "g" [("id", .str "axesA")]
      [el "rect" [("width", .num 10), ("height", .num 10)] []],
     el "g" [("id", .str "axesC")]
      [el "rect" [("width", .num 10), ("height", .num 5)] []]]

/-- The result of the `patch-bottom` pass on `siblingAlignTree`: the first
group gains `translate(0, -5)`. -/
def alignedSiblingTree : Element :=
  el "svg" []
    [el "g" [("id", .str "axesA"), ("transform", .trNum 0 (-5))]
      [el "rect" [("width", .num 10), ("height", .num 10)] []],
     el "g" [("id", .str "axesC")]
      [el "rect" [("width", .num 10), ("height", .num 5)] []]]

/-- C8 witness: the amended statement at `siblingAlignTree`, for the group
at path `[0]`. -/
theorem c8_nonnested_bottoms_align_witness :
    ∃ g' b', subtreeAt alignedSiblingTree [0] = some g' ∧
      get_element_bounds g' (0, 0) = some (some b') ∧
      |b'.maxY - minBottom [⟨0, 0, 10, 10⟩, ⟨0, 0, 10, 5⟩]| ≤ 1 / 10 :=
  c8_nonnested_bottoms_align siblingAlignTree alignedSiblingTree
    [⟨0, 0, 10, 10⟩, ⟨0, 0, 10, 5⟩] (by decide) (by decide) rfl
    ([0], ⟨0, 0, 10, 10⟩) (by decide)

end AlignAxes

end Svg
